import Mathlib

/-!
Shallow embedding of the `molasses` MLS-style handshake code:
`src/handshake.rs` (UserInitKey and group operations) and
`src/crypto/aead.rs` (AES-128-GCM AEAD wrapper).

Machine bytes are modelled as `Nat` values (reduced `% 256` where the code
computes on them); fallible Rust functions returning `Result<T, Error>`
become `Except Error T`.
-/

/-- Modelled from the spec: `error.rs` is not under `src/`. Section 7 of the
spec lists the error kinds ValidationError, SignatureError, EncryptionError,
ConfirmationError, EpochMismatchError; the code in `src/` additionally
mentions SerdeError. `ValidationError` and `EncryptionError` carry a static
description string in the code. -/
inductive Error where
  | ValidationError (description : String)
  | SignatureError
  | EncryptionError (description : String)
  | SerdeError
  | ConfirmationError
  | EpochMismatchError
deriving DecidableEq, Repr

/-- `type ProtocolVersion = u8` in `handshake.rs`. -/
abbrev ProtocolVersion := Nat

/-- Modelled from the spec: `crypto/ciphersuite.rs` is not under `src/`.
The code under `src/` uses a cipher suite only through its `name` field
(`sort_by_key(|c| c.name)`, `dedup_by_key(|c| c.name)`) and through whole-value
equality of `&'static CipherSuite` references; we therefore model a suite by
its name. -/
structure CipherSuite where
  name : Nat
deriving DecidableEq, Repr

/-- Modelled from the spec: DH public keys (`crypto/dh.rs` is not under
`src/`) are opaque values to the handshake code. -/
abbrev DhPublicKey := Nat

/-- Modelled from the spec: DH private keys are opaque values to the
handshake code. -/
abbrev DhPrivateKey := Nat

/-- Modelled from the spec: a signature is an opaque byte string. -/
abbrev Signature := List Nat

/-- Modelled from the spec: a signing public key is opaque to the handshake
code. -/
abbrev SigPublicKey := Nat

/-- Modelled from the spec: a signing secret key is opaque to the handshake
code. -/
abbrev SigSecretKey := Nat

/-- Modelled from the spec: `crypto/sig.rs` is not under `src/`. The spec
says `verify_signature` returns `Err(SignatureError)` on verification
failure, so the scheme's verification is modelled as a boolean predicate. -/
structure SignatureScheme where
  sign : SigSecretKey → List Nat → Signature
  verify : SigPublicKey → List Nat → Signature → Bool

/-- Modelled from the spec: `credential.rs` is not under `src/`. The
handshake code uses a credential through `get_signature_scheme()` and
`get_public_key()`, plus its wire serialization; `bytes` stands for the
latter. -/
structure Credential where
  scheme : SignatureScheme
  publicKey : SigPublicKey
  bytes : List Nat

/-- Modelled from the spec: hybrid-encryption ciphertexts are opaque to the
handshake code. -/
abbrev EciesCiphertext := List Nat

/-- `DirectPathNodeMessage` from `handshake.rs`. -/
structure DirectPathNodeMessage where
  public_key : DhPublicKey
  node_secrets : List EciesCiphertext

/-- `DirectPathMessage` from `handshake.rs`. -/
structure DirectPathMessage where
  node_messages : List DirectPathNodeMessage

/-- `UserInitKey` from `handshake.rs`. -/
structure UserInitKey where
  user_init_key_id : List Nat
  supported_versions : List ProtocolVersion
  cipher_suites : List CipherSuite
  init_keys : List DhPublicKey
  private_keys : Option (List DhPrivateKey)
  credential : Credential
  signature : Signature

/-- `PartialUserInitKey` from `handshake.rs`: everything but the signature
field of a `UserInitKey`; its serialized form is the message the signature
is computed over. -/
structure PartialUserInitKey where
  user_init_key_id : List Nat
  supported_versions : List ProtocolVersion
  cipher_suites : List CipherSuite
  init_keys : List DhPublicKey
  credential : Credential

/-- Modelled from the spec: the length-prefixed wire codec (`tls_ser.rs` is
not under `src/`); a `<0..255>`-bounded vector is its 1-byte length followed
by the element bytes. -/
def serBound8 (l : List Nat) : List Nat := (l.length % 256) :: l

/-- Modelled from the spec: a `<0..2^16-1>`-bounded vector is its 2-byte
big-endian length followed by the element bytes. -/
def serBound16 (l : List Nat) : List Nat :=
  (l.length / 256 % 256) :: (l.length % 256) :: l

/-- Modelled from the spec: `tls_ser::serialize_to_bytes` on a
`PartialUserInitKey`, field by field in declaration order, using the
serde renames declared in `handshake.rs` (`__bound_u8` / `__bound_u16`). -/
def serialize_to_bytes (p : PartialUserInitKey) : List Nat :=
  serBound8 p.user_init_key_id ++ serBound8 p.supported_versions ++
    serBound8 (p.cipher_suites.map CipherSuite.name) ++
    serBound16 p.init_keys ++ p.credential.bytes

/-- The sort key used by `UserInitKey::validate`: `sort_by_key(|c| c.name)`. -/
def csLE (a b : CipherSuite) : Prop := a.name ≤ b.name

instance : DecidableRel csLE := fun a b => Nat.decLe a.name b.name

instance : IsTotal CipherSuite csLE := ⟨fun a b => Nat.le_total a.name b.name⟩

instance : IsTrans CipherSuite csLE := ⟨fun _ _ _ => Nat.le_trans⟩

/-- `UserInitKey::validate` from `handshake.rs`: length equality of the
parallel arrays (including `private_keys` when present), then uniqueness of
the cipher suites checked by sorting by name, removing adjacent duplicates
by name (`Vec::dedup_by_key`), and comparing lengths. -/
def UserInitKey.validate (u : UserInitKey) : Except Error Unit :=
  if u.supported_versions.length ≠ u.cipher_suites.length then
    .error (Error.ValidationError
      "UserInitKey::supported_verions.len() != UserInitKey::cipher_suites.len()")
  else if u.init_keys.length ≠ u.cipher_suites.length then
    .error (Error.ValidationError
      "UserInitKey::init_keys.len() != UserInitKey::cipher_suites.len()")
  else if (match u.private_keys with
           | some ks => ks.length != u.cipher_suites.length
           | none => false) then
    .error (Error.ValidationError
      "UserInitKey::private_keys.len() != UserInitKey::cipher_suites.len()")
  else if (List.destutter (fun a b => a.name ≠ b.name)
      (List.insertionSort csLE u.cipher_suites)).length ≠ u.cipher_suites.length then
    .error (Error.ValidationError
      "UserInitKey has init keys with duplicate ciphersuites")
  else .ok ()

/-- `UserInitKey::get_public_key` from `handshake.rs`: validate, then scan
`cipher_suites` in lock-step with `init_keys` for the first match. -/
def UserInitKey.get_public_key (u : UserInitKey) (cs_to_find : CipherSuite) :
    Except Error (Option DhPublicKey) :=
  match u.validate with
  | .error e => .error e
  | .ok () =>
    match (u.cipher_suites.zip u.init_keys).find? (fun p => p.1 == cs_to_find) with
    | some p => .ok (some p.2)
    | none => .ok none

/-- `UserInitKey::get_private_key` from `handshake.rs`: validate, then, when
`private_keys` is present, scan `cipher_suites` in lock-step with it for the
first match; otherwise `Ok(None)`. -/
def UserInitKey.get_private_key (u : UserInitKey) (cs_to_find : CipherSuite) :
    Except Error (Option DhPrivateKey) :=
  match u.validate with
  | .error e => .error e
  | .ok () =>
    match u.private_keys with
    | some private_keys =>
      match (u.cipher_suites.zip private_keys).find? (fun p => p.1 == cs_to_find) with
      | some p => .ok (some p.2)
      | none => .ok none
    | none => .ok none

/-- `UserInitKey::verify_sig` from `handshake.rs`: rebuild the
`PartialUserInitKey` from the bundle's fields, serialize it, and verify the
`signature` field over it under the public key of the embedded credential. -/
def UserInitKey.verify_sig (u : UserInitKey) : Except Error Unit :=
  let p : PartialUserInitKey :=
    ⟨u.user_init_key_id, u.supported_versions, u.cipher_suites, u.init_keys, u.credential⟩
  let serialized_uik := serialize_to_bytes p
  if u.credential.scheme.verify u.credential.publicKey serialized_uik u.signature
  then .ok () else .error Error.SignatureError

/-- `UserInitKey::new_from_random` from `handshake.rs`. `derive_public_key`
stands for `cs.dh_impl.derive_public_key` and `csprng` for the successive
scalars drawn by `cs.dh_impl.scalar_from_random(csprng)` (both live in
`crypto/dh.rs`, not under `src/`). Note the duplicate check is Rust's
`Vec::dedup`, which removes only adjacent duplicates. -/
def UserInitKey.new_from_random
    (derive_public_key : CipherSuite → DhPrivateKey → DhPublicKey)
    (identity_key : SigSecretKey) (user_init_key_id : List Nat)
    (credential : Credential) (cipher_suites : List CipherSuite)
    (supported_versions : List ProtocolVersion)
    (csprng : Nat → DhPrivateKey) : Except Error UserInitKey :=
  let old_cipher_suite_len := cipher_suites.length
  let deduped := List.destutter (fun a b => a ≠ b) cipher_suites
  if deduped.length ≠ old_cipher_suite_len then
    .error (Error.ValidationError
      "Cannot make a UserInitKey with duplicate ciphersuites")
  else
    let cipher_suites := deduped
    if cipher_suites.length ≠ supported_versions.length then
      .error (Error.ValidationError
        "Supported ciphersuites and supported version vectors differ in length")
    else
      let private_keys := (List.range cipher_suites.length).map csprng
      let init_keys := List.zipWith derive_public_key cipher_suites private_keys
      let p : PartialUserInitKey :=
        ⟨user_init_key_id, supported_versions, cipher_suites, init_keys, credential⟩
      let serialized_uik := serialize_to_bytes p
      let signature := credential.scheme.sign identity_key serialized_uik
      .ok ⟨user_init_key_id, supported_versions, cipher_suites, init_keys,
           some private_keys, credential, signature⟩

/-- `GroupInit` from `handshake.rs` (a unit struct). -/
structure GroupInit

/-- `GroupAdd` from `handshake.rs`. -/
structure GroupAdd where
  roster_index : Nat
  init_key : UserInitKey
  welcome_info_hash : List Nat

/-- `GroupUpdate` from `handshake.rs`. -/
structure GroupUpdate where
  path : DirectPathMessage

/-- `GroupRemove` from `handshake.rs`. -/
structure GroupRemove where
  removed_roster_index : Nat
  path : DirectPathMessage

/-- `GroupOperation` from `handshake.rs`. -/
inductive GroupOperation where
  | Init (g : GroupInit)
  | Add (g : GroupAdd)
  | Update (g : GroupUpdate)
  | Remove (g : GroupRemove)

/-- `AES_128_GCM_KEY_SIZE` from `crypto/aead.rs`. -/
def AES_128_GCM_KEY_SIZE : Nat := 128 / 8

/-- `AES_128_GCM_TAG_SIZE` from `crypto/aead.rs`. -/
def AES_128_GCM_TAG_SIZE : Nat := 128 / 8

/-- `AES_128_GCM_NONCE_SIZE` from `crypto/aead.rs`. -/
def AES_128_GCM_NONCE_SIZE : Nat := 96 / 8

/-- Modelled from the spec: a `ring::aead` AES-128-GCM key object (the
`ring` crate is an external primitive); it holds the raw key bytes. -/
structure RingAesKey where
  bytes : List Nat

/-- Modelled from the spec: a `ring::aead::Nonce`; it holds the raw nonce
bytes. -/
structure RingNonce where
  bytes : List Nat

/-- `Aes128GcmKey` from `crypto/aead.rs`: two copies of the same `ring` key,
one for opening and one for sealing. -/
structure Aes128GcmKey where
  opening_key : RingAesKey
  sealing_key : RingAesKey

/-- `AeadKey` from `crypto/aead.rs`. -/
inductive AeadKey where
  | Aes128GcmKey (k : Aes128GcmKey)

/-- `AeadNonce` from `crypto/aead.rs`. -/
inductive AeadNonce where
  | Aes128GcmNonce (n : RingNonce)

/-- The `Debug` impl for `AeadKey` in `crypto/aead.rs`: a fixed string so
that the secret value is never logged. -/
def AeadKey.debugFmt (_ : AeadKey) : String := "AeadKey: CONTENTS OMITTED"

/-- Modelled from the spec: the keystream byte of the external AES-128-GCM
primitive at position `i`; AEAD concrete internals are out of the core's
scope, so any key- and nonce-dependent invertible stream models it. -/
def ringKeystream (key nonce : List Nat) (i : Nat) : Nat :=
  (key.getD (i % 16) 0 + nonce.getD (i % 12) 0 + i) % 256

/-- Modelled from the spec: byte-wise encryption under a keystream. -/
def ringEnc (ks : Nat → Nat) : Nat → List Nat → List Nat
  | _, [] => []
  | i, b :: rest => (b + ks i) % 256 :: ringEnc ks (i + 1) rest

/-- Modelled from the spec: byte-wise decryption under a keystream. -/
def ringDec (ks : Nat → Nat) : Nat → List Nat → List Nat
  | _, [] => []
  | i, b :: rest => (b + (256 - ks i % 256)) % 256 :: ringDec ks (i + 1) rest

/-- Modelled from the spec: the 16-byte authentication tag of the external
AES-128-GCM primitive over a ciphertext. -/
def ringTag (key nonce ct : List Nat) : List Nat :=
  (List.range AES_128_GCM_TAG_SIZE).map
    (fun j => (j + ct.sum + key.sum + nonce.sum) % 256)

/-- Modelled from the spec: `ring::aead::seal_in_place` with empty
associated data and a 16-byte tag suffix: the last 16 bytes of the buffer
are reserved for the tag, the rest is encrypted in place and the tag is
appended. Fails when the buffer cannot hold a tag. -/
def ring_seal_in_place (key : RingAesKey) (nonce : RingNonce)
    (in_out : List Nat) : Except Unit (List Nat) :=
  if in_out.length < AES_128_GCM_TAG_SIZE then .error ()
  else
    let pt := in_out.take (in_out.length - AES_128_GCM_TAG_SIZE)
    let ct := ringEnc (ringKeystream key.bytes nonce.bytes) 0 pt
    .ok (ct ++ ringTag key.bytes nonce.bytes ct)

/-- Modelled from the spec: `ring::aead::open_in_place` with empty
associated data: split off the 16-byte tag, recompute it over the
ciphertext, and decrypt only on a tag match. -/
def ring_open_in_place (key : RingAesKey) (nonce : RingNonce)
    (in_out : List Nat) : Except Unit (List Nat) :=
  if in_out.length < AES_128_GCM_TAG_SIZE then .error ()
  else
    let ct := in_out.take (in_out.length - AES_128_GCM_TAG_SIZE)
    let tag := in_out.drop (in_out.length - AES_128_GCM_TAG_SIZE)
    if tag = ringTag key.bytes nonce.bytes ct
    then .ok (ringDec (ringKeystream key.bytes nonce.bytes) 0 ct)
    else .error ()

/-- `Aes128Gcm::key_from_bytes` from `crypto/aead.rs`: reject byte strings
that are not exactly 16 bytes with an `EncryptionError`, then build the
opening and sealing copies of the `ring` key (whose construction, external
to this repository, is modelled as total). -/
def Aes128Gcm.key_from_bytes (key_bytes : List Nat) : Except Error AeadKey :=
  if key_bytes.length ≠ AES_128_GCM_KEY_SIZE then
    .error (Error.EncryptionError "AES-GCM-128 requires 128-bit keys")
  else
    let opening_key : RingAesKey := ⟨key_bytes⟩
    let sealing_key : RingAesKey := ⟨key_bytes⟩
    .ok (AeadKey.Aes128GcmKey ⟨opening_key, sealing_key⟩)

/-- `Aes128Gcm::nonce_from_bytes` from `crypto/aead.rs`: reject byte strings
that are not exactly 12 bytes with an `EncryptionError`. -/
def Aes128Gcm.nonce_from_bytes (nonce_bytes : List Nat) : Except Error AeadNonce :=
  if nonce_bytes.length ≠ AES_128_GCM_NONCE_SIZE then
    .error (Error.EncryptionError "AES-GCM-128 requires 96-bit nonces")
  else .ok (AeadNonce.Aes128GcmNonce ⟨nonce_bytes⟩)

/-- `Aes128Gcm::open` from `crypto/aead.rs` (named `aeadOpen` here because
`open` is a Lean keyword): in-place authenticated decryption of
`ciphertext || tag`; any failure of the underlying `ring` call becomes
`EncryptionError "Unspecified"`. The returned list is the decrypted buffer
without the trailing 16 bytes. -/
def Aes128Gcm.aeadOpen (key : AeadKey) (nonce : AeadNonce)
    (ciphertext_and_tag : List Nat) : Except Error (List Nat) :=
  match key, nonce with
  | AeadKey.Aes128GcmKey k, AeadNonce.Aes128GcmNonce n =>
    match ring_open_in_place k.opening_key n ciphertext_and_tag with
    | .ok pt => .ok pt
    | .error _ => .error (Error.EncryptionError "Unspecified")

/-- `Aes128Gcm::seal` from `crypto/aead.rs`: in-place authenticated
encryption of `plaintext || extra` where `extra` is 16 bytes of scratch for
the tag; any failure of the underlying `ring` call becomes
`EncryptionError "Unspecified"`. The Rust function returns `Ok(())` and
mutates the buffer; here the sealed buffer is returned. -/
def Aes128Gcm.seal (key : AeadKey) (nonce : AeadNonce)
    (plaintext : List Nat) : Except Error (List Nat) :=
  match key, nonce with
  | AeadKey.Aes128GcmKey k, AeadNonce.Aes128GcmNonce n =>
    match ring_seal_in_place k.sealing_key n plaintext with
    | .ok sealed => .ok sealed
    | .error _ => .error (Error.EncryptionError "Unspecified")

/-- Whether an `Error` is the (undifferentiated) `EncryptionError` kind. -/
def Error.isEncryptionError : Error → Bool
  | Error.EncryptionError _ => true
  | _ => false

/-! ### Helper lemmas about the sort-then-dedup uniqueness check -/

lemma destutter_length_eq_iff {α : Type} {R : α → α → Prop} [DecidableRel R]
    {l : List α} : (l.destutter R).length = l.length ↔ l.Chain' R := by
  constructor
  · intro h
    exact (List.destutter_eq_self_iff R l).mp ((List.destutter_sublist R l).eq_of_length h)
  · intro h
    rw [List.destutter_of_chain' R l h]

lemma sorted_chain_ne_iff_nodup :
    ∀ (s : List CipherSuite), s.Sorted csLE →
      (s.Chain' (fun a b => a.name ≠ b.name) ↔ (s.map CipherSuite.name).Nodup)
  | [], _ => by simp
  | [a], _ => by simp
  | a :: b :: t, hs => by
    have hab : csLE a b := (List.sorted_cons.mp hs).1 b (List.mem_cons_self b t)
    have hs' : (b :: t).Sorted csLE := (List.sorted_cons.mp hs).2
    have ih := sorted_chain_ne_iff_nodup (b :: t) hs'
    rw [List.chain'_cons, List.map_cons, List.nodup_cons, ih]
    constructor
    · rintro ⟨hne, hnd⟩
      refine ⟨?_, hnd⟩
      intro hmem
      rcases List.mem_map.mp hmem with ⟨c, hc, hname⟩
      rcases List.mem_cons.mp hc with rfl | hct
      · exact hne hname.symm
      · -- a ≤ b ≤ c and name c = name a forces name b = name a
        have hbc : csLE b c := (List.sorted_cons.mp hs').1 c hct
        have : b.name = a.name := Nat.le_antisymm (hname ▸ hbc) hab
        exact hne this.symm
    · rintro ⟨hnotmem, hnd⟩
      refine ⟨?_, hnd⟩
      intro h
      exact hnotmem (List.mem_map.mpr ⟨b, List.mem_cons_self b t, h.symm⟩)

lemma sort_dedup_length_iff (l : List CipherSuite) :
    (List.destutter (fun a b => a.name ≠ b.name)
        (List.insertionSort csLE l)).length = l.length ↔
      (l.map CipherSuite.name).Nodup := by
  have hperm := List.perm_insertionSort csLE l
  have hlen : (List.insertionSort csLE l).length = l.length := hperm.length_eq
  rw [← hlen, destutter_length_eq_iff,
    sorted_chain_ne_iff_nodup _ (List.sorted_insertionSort csLE l)]
  exact (hperm.map CipherSuite.name).nodup_iff

/-! ### Characterization of `UserInitKey.validate` -/

lemma validate_ok_iff (u : UserInitKey) :
    u.validate = .ok () ↔
      (u.supported_versions.length = u.cipher_suites.length ∧
       u.init_keys.length = u.cipher_suites.length ∧
       (∀ ks, u.private_keys = some ks → ks.length = u.cipher_suites.length) ∧
       (u.cipher_suites.map CipherSuite.name).Nodup) := by
  unfold UserInitKey.validate
  split_ifs with h1 h2 h3 h4
  · simp only [reduceCtorEq, false_iff]
    rintro ⟨hsv, -, -, -⟩; exact h1 hsv
  · simp only [reduceCtorEq, false_iff]
    rintro ⟨-, hik, -, -⟩; exact h2 hik
  · simp only [reduceCtorEq, false_iff]
    rintro ⟨-, -, hpk, -⟩
    cases hks : u.private_keys with
    | none => rw [hks] at h3; simp at h3
    | some ks =>
      rw [hks] at h3
      simp only [bne_iff_ne, ne_eq, decide_eq_true_eq] at h3
      exact h3 (hpk ks hks)
  · simp only [reduceCtorEq, false_iff]
    rintro ⟨-, -, -, hnd⟩
    exact h4 ((sort_dedup_length_iff u.cipher_suites).mpr hnd)
  · simp only [true_iff]
    refine ⟨not_ne_iff.mp h1, not_ne_iff.mp h2, ?_, ?_⟩
    · intro ks hks
      rw [hks] at h3
      simpa using h3
    · exact (sort_dedup_length_iff u.cipher_suites).mp (not_ne_iff.mp h4)

lemma validate_error_shape (u : UserInitKey) (e : Error) :
    u.validate = .error e → ∃ s, e = Error.ValidationError s := by
  unfold UserInitKey.validate
  split_ifs <;> intro h <;> first
    | exact ⟨_, (Except.error.inj h).symm⟩
    | exact absurd h (by simp)

lemma validate_ok_or_error (u : UserInitKey) :
    u.validate = .ok () ∨ ∃ e, u.validate = .error e := by
  cases h : u.validate with
  | ok v => obtain ⟨⟩ := v; exact Or.inl rfl
  | error e => exact Or.inr ⟨e, rfl⟩

/-! ### Helper lemmas about the lock-step suite/key scan -/

lemma zip_find_some {β : Type} (cs : CipherSuite) :
    ∀ (csl : List CipherSuite) (ks : List β) (p : CipherSuite × β),
      (csl.zip ks).find? (fun q => q.1 == cs) = some p →
      ∃ i : Nat, csl[i]? = some cs ∧ ks[i]? = some p.2 ∧ ∀ j : Nat, j < i → csl[j]? ≠ some cs
  | [], _, p => by simp
  | _ :: _, [], p => by simp
  | c :: ct, k :: kt, p => by
    intro h
    rw [List.zip_cons_cons, List.find?_cons] at h
    by_cases hc : c = cs
    · simp only [hc, beq_self_eq_true] at h
      refine ⟨0, by simp [hc], ?_, by simp⟩
      obtain rfl : (cs, k) = p := Option.some.inj h
      simp
    · have : ((c, k).1 == cs) = false := beq_eq_false_iff_ne.mpr hc
      rw [this] at h
      obtain ⟨i, hcs, hk, hmin⟩ := zip_find_some cs ct kt p h
      refine ⟨i + 1, by simpa using hcs, by simpa using hk, ?_⟩
      intro j hj
      cases j with
      | zero => simpa using hc
      | succ j' => simpa using hmin j' (Nat.lt_of_succ_lt_succ hj)

lemma zip_find_none {β : Type} (cs : CipherSuite) :
    ∀ (csl : List CipherSuite) (ks : List β), csl.length = ks.length →
      ((csl.zip ks).find? (fun q => q.1 == cs) = none ↔ ∀ i : Nat, csl[i]? ≠ some cs)
  | [], [], _ => by simp
  | [], _ :: _, h => by simp at h
  | _ :: _, [], h => by simp at h
  | c :: ct, k :: kt, h => by
    have hlen : ct.length = kt.length := by simpa using h
    rw [List.zip_cons_cons, List.find?_cons]
    by_cases hc : c = cs
    · simp only [hc, beq_self_eq_true]
      constructor
      · intro hfalse; exact absurd hfalse (by simp)
      · intro hall; exact absurd (by simp [hc] : (c :: ct)[0]? = some cs) (hc ▸ hall 0)
    · have : ((c, k).1 == cs) = false := beq_eq_false_iff_ne.mpr hc
      rw [this, zip_find_none cs ct kt hlen]
      constructor
      · intro hall i
        cases i with
        | zero => simpa using hc
        | succ i' => simpa using hall i'
      · intro hall i
        simpa using hall (i + 1)

lemma nodup_index_unique {l : List CipherSuite} (hnd : (l.map CipherSuite.name).Nodup)
    {i j : Nat} {cs : CipherSuite} (hi : l[i]? = some cs) (hj : l[j]? = some cs) :
    j = i := by
  have hnd' : l.Nodup := hnd.of_map
  have hilen : i < l.length := by
    by_contra hge
    rw [List.getElem?_eq_none (Nat.le_of_not_lt hge)] at hi
    exact Option.noConfusion hi
  exact (List.getElem?_inj hilen hnd' (hi.trans hj.symm)).symm

/-! ### Concrete bundles used by witnesses and counterexamples -/

/-- A trivial signature scheme instance for concrete test bundles: signing
prepends the secret key, verification checks that shape. -/
def testScheme : SignatureScheme :=
  ⟨fun sk m => sk :: m, fun pk m s => s == pk :: m⟩

/-- A concrete credential for test bundles. -/
def testCred : Credential := ⟨testScheme, 5, [9]⟩

/-- A well-formed empty bundle (no private keys). -/
def uikEmpty : UserInitKey := ⟨[], [], [], [], none, testCred, []⟩

/-- A bundle whose three parallel arrays are all empty (equal length, no
duplicate suites) but whose `private_keys` is present with length 1. -/
def uikShortPrivate : UserInitKey := ⟨[], [], [], [], some [0], testCred, []⟩

/-- C1 counterexample: the claim's conditions (equal length of
`supported_versions`, `cipher_suites`, `init_keys`, and no duplicate cipher
suites) hold for `uikShortPrivate`, yet `validate` rejects it, because the
code additionally requires a present `private_keys` vector to have the same
length as `cipher_suites`. -/
theorem uik_validate_c1_counterexample :
    uikShortPrivate.supported_versions.length = uikShortPrivate.cipher_suites.length ∧
    uikShortPrivate.init_keys.length = uikShortPrivate.cipher_suites.length ∧
    (uikShortPrivate.cipher_suites.map CipherSuite.name).Nodup ∧
    uikShortPrivate.validate = .error (Error.ValidationError
      "UserInitKey::private_keys.len() != UserInitKey::cipher_suites.len()") :=
  ⟨rfl, rfl, by simp [uikShortPrivate], rfl⟩

/-- C1 (amended): `UserInitKey.validate` returns `Ok(())` iff
`supported_versions`, `cipher_suites`, and `init_keys` all have equal
length, `cipher_suites` contains no duplicate cipher suites, and, when the
`private_keys` vector is present, it too has the same length; every bundle
violating these conditions fails with `Error::ValidationError`. -/
theorem uik_validate_ok_iff_c1_amended (u : UserInitKey) :
    (u.validate = .ok () ↔
      (u.supported_versions.length = u.cipher_suites.length ∧
       u.init_keys.length = u.cipher_suites.length ∧
       (∀ ks, u.private_keys = some ks → ks.length = u.cipher_suites.length) ∧
       (u.cipher_suites.map CipherSuite.name).Nodup)) ∧
    (∀ e, u.validate = .error e → ∃ s, e = Error.ValidationError s) :=
  ⟨validate_ok_iff u, validate_error_shape u⟩

/-- Witness for C1 (amended): both directions applied at concrete bundles:
the empty bundle validates, and the rejection of `uikShortPrivate` is a
`ValidationError`. -/
theorem uik_validate_ok_iff_c1_amended_witness :
    uikEmpty.validate = .ok () ∧
    ∃ s, Error.ValidationError
        "UserInitKey::private_keys.len() != UserInitKey::cipher_suites.len()" =
      Error.ValidationError s :=
  ⟨(uik_validate_ok_iff_c1_amended uikEmpty).1.mpr
      ⟨rfl, rfl, fun ks h => by simp [uikEmpty] at h, by simp [uikEmpty]⟩,
   (uik_validate_ok_iff_c1_amended uikShortPrivate).2 _ rfl⟩

/-- C2: code bug. `UserInitKey::new_from_random` checks for duplicate cipher
suites with `Vec::dedup`, which removes only adjacent duplicates; on the
suite list `[0, 1, 0]` (duplicates not adjacent) it succeeds and returns a
bundle that its own `validate` rejects for duplicate ciphersuites,
contradicting the intended invariant. -/
theorem uik_new_from_random_nonadjacent_dup_bug :
    ∃ u, UserInitKey.new_from_random (fun _ s => s) 0 [] testCred
        [⟨0⟩, ⟨1⟩, ⟨0⟩] [0, 0, 0] (fun i => i) = .ok u ∧
      u.validate = .error (Error.ValidationError
        "UserInitKey has init keys with duplicate ciphersuites") :=
  ⟨_, rfl, rfl⟩

/-- C3: `UserInitKey.get_public_key` returns an error exactly when `validate`
does (and that error is a `ValidationError`); on a validating bundle it
returns `Ok(Some(init_keys[i]))` for the unique index `i` whose cipher suite
equals the requested one, and `Ok(None)` iff no such index exists. -/
theorem uik_get_public_key_spec (u : UserInitKey) (cs : CipherSuite) :
    (∀ e, u.get_public_key cs = .error e ↔ u.validate = .error e) ∧
    (∀ e, u.get_public_key cs = .error e → ∃ s, e = Error.ValidationError s) ∧
    (u.validate = .ok () →
      ((u.get_public_key cs = .ok none ↔ ∀ i : Nat, u.cipher_suites[i]? ≠ some cs) ∧
       (∀ k, u.get_public_key cs = .ok (some k) ↔
          ∃ i : Nat, u.cipher_suites[i]? = some cs ∧ u.init_keys[i]? = some k ∧
            ∀ j : Nat, u.cipher_suites[j]? = some cs → j = i))) := by
  cases hv : u.validate with
  | error e' =>
    have hg : u.get_public_key cs = .error e' := by
      simp only [UserInitKey.get_public_key, hv]
    refine ⟨?_, ?_, ?_⟩
    · intro e; rw [hg]
      exact ⟨fun h => by rw [Except.error.inj h], fun h => by rw [Except.error.inj h]⟩
    · intro e h
      rw [hg] at h
      have he : e' = e := Except.error.inj h
      exact he ▸ validate_error_shape u e' hv
    · intro h; exact absurd h (by simp)
  | ok v =>
    obtain ⟨⟩ := v
    obtain ⟨hsv, hik, hpkl, hnd⟩ := (validate_ok_iff u).mp hv
    have hlen : u.cipher_suites.length = u.init_keys.length := hik.symm
    cases hf : (u.cipher_suites.zip u.init_keys).find? (fun p => p.1 == cs) with
    | none =>
      have hg : u.get_public_key cs = .ok none := by
        simp only [UserInitKey.get_public_key, hv, hf]
      have hnone : ∀ i : Nat, u.cipher_suites[i]? ≠ some cs :=
        (zip_find_none cs u.cipher_suites u.init_keys hlen).mp hf
      refine ⟨?_, ?_, fun _ => ⟨?_, ?_⟩⟩
      · intro e; rw [hg]
        exact ⟨fun h => absurd h (by simp), fun h => absurd h (by simp)⟩
      · intro e h; rw [hg] at h; exact absurd h (by simp)
      · rw [hg]; exact iff_of_true rfl hnone
      · intro k; rw [hg]
        constructor
        · intro h; exact absurd h (by simp)
        · rintro ⟨i, hcs, -, -⟩; exact absurd hcs (hnone i)
    | some p =>
      have hg : u.get_public_key cs = .ok (some p.2) := by
        simp only [UserInitKey.get_public_key, hv, hf]
      obtain ⟨i, hcs, hk, -⟩ := zip_find_some cs u.cipher_suites u.init_keys p hf
      refine ⟨?_, ?_, fun _ => ⟨?_, ?_⟩⟩
      · intro e; rw [hg]
        exact ⟨fun h => absurd h (by simp), fun h => absurd h (by simp)⟩
      · intro e h; rw [hg] at h; exact absurd h (by simp)
      · rw [hg]
        constructor
        · intro h; exact absurd h (by simp)
        · intro hall; exact absurd hcs (hall i)
      · intro k; rw [hg]
        constructor
        · intro h
          have hpk : p.2 = k := by simpa using h
          exact ⟨i, hcs, hpk ▸ hk, fun j hj => nodup_index_unique hnd hcs hj⟩
        · rintro ⟨i', hcs', hk', huniq⟩
          obtain rfl : i = i' := huniq i hcs
          have : p.2 = k := Option.some.inj (hk.symm.trans hk')
          rw [this]

/-- Witness for C3: on the empty validating bundle, lookup of any suite is
`Ok(None)`. -/
theorem uik_get_public_key_spec_witness :
    uikEmpty.get_public_key ⟨0⟩ = .ok none :=
  ((uik_get_public_key_spec uikEmpty ⟨0⟩).2.2 rfl).1.mpr (fun i => by simp [uikEmpty])

/-- C7: once validation succeeds, `UserInitKey.get_private_key` returns
`Ok(None)` for every requested suite whenever `private_keys` is absent; and
it returns `Ok(Some(k))` only when `private_keys` is present and `k` sits at
an index whose cipher suite equals the requested one. -/
theorem uik_get_private_key_spec (u : UserInitKey) (cs : CipherSuite) :
    (u.private_keys = none → u.validate = .ok () → u.get_private_key cs = .ok none) ∧
    (∀ k, u.get_private_key cs = .ok (some k) →
      ∃ ks, u.private_keys = some ks ∧
        ∃ i : Nat, u.cipher_suites[i]? = some cs ∧ ks[i]? = some k) := by
  constructor
  · intro hnone hv
    simp only [UserInitKey.get_private_key, hv, hnone]
  · intro k h
    cases hv : u.validate with
    | error e =>
      simp only [UserInitKey.get_private_key, hv] at h
      exact absurd h (by simp)
    | ok v =>
      obtain ⟨⟩ := v
      cases hks : u.private_keys with
      | none =>
        simp only [UserInitKey.get_private_key, hv, hks] at h
        exact absurd h (by simp)
      | some ks =>
        simp only [UserInitKey.get_private_key, hv, hks] at h
        cases hf : (u.cipher_suites.zip ks).find? (fun p => p.1 == cs) with
        | none => rw [hf] at h; exact absurd h (by simp)
        | some p =>
          rw [hf] at h
          have hpk : p.2 = k := by simpa using h
          obtain ⟨i, hcs, hk, -⟩ := zip_find_some cs u.cipher_suites ks p hf
          exact ⟨ks, rfl, i, hcs, hpk ▸ hk⟩

/-- Witness for C7: the empty bundle has no private keys and validates, so
private-key lookup of any suite is `Ok(None)`. -/
theorem uik_get_private_key_spec_witness :
    uikEmpty.get_private_key ⟨1⟩ = .ok none :=
  (uik_get_private_key_spec uikEmpty ⟨1⟩).1 rfl rfl

/-- C4: sign-then-verify round-trip. If the credential's signature scheme
verifies a signature it produced under `identity_key` over any message, then
every bundle successfully produced by `new_from_random` with that identity
key passes `verify_sig` — both sides serialize the same
`PartialUserInitKey`. -/
theorem uik_sign_then_verify_roundtrip
    (derive_public_key : CipherSuite → DhPrivateKey → DhPublicKey)
    (identity_key : SigSecretKey) (uid : List Nat) (cred : Credential)
    (css : List CipherSuite) (svs : List ProtocolVersion)
    (csprng : Nat → DhPrivateKey) (u : UserInitKey)
    (hsig : ∀ m, cred.scheme.verify cred.publicKey m
      (cred.scheme.sign identity_key m) = true)
    (hok : UserInitKey.new_from_random derive_public_key identity_key uid cred
      css svs csprng = .ok u) :
    u.verify_sig = .ok () := by
  simp only [UserInitKey.new_from_random] at hok
  split at hok
  · exact absurd hok (by simp)
  · split at hok
    · exact absurd hok (by simp)
    · obtain rfl := Except.ok.inj hok
      simp [UserInitKey.verify_sig, hsig]

/-- Witness for C4: a concrete one-suite bundle built with the test scheme
verifies. -/
theorem uik_sign_then_verify_roundtrip_witness :
    ∃ u, UserInitKey.new_from_random (fun _ s => s) 5 [7] testCred [⟨0⟩] [1]
        (fun i => i) = .ok u ∧ u.verify_sig = .ok () :=
  ⟨_, rfl, uik_sign_then_verify_roundtrip (fun _ s => s) 5 [7] testCred [⟨0⟩]
      [1] (fun i => i) _ (fun m => by simp [testCred, testScheme]) rfl⟩

/-- C5: `verify_sig` succeeds exactly when the credential's scheme verifies
the bundle's signature, under the public key named in the embedded
credential, over the serialization of precisely `user_init_key_id`,
`supported_versions`, `cipher_suites`, `init_keys`, and `credential`; and
any failure is reported as a signature error. -/
theorem uik_verify_sig_message_spec (u : UserInitKey) :
    (u.verify_sig = .ok () ↔
      u.credential.scheme.verify u.credential.publicKey
        (serialize_to_bytes ⟨u.user_init_key_id, u.supported_versions,
          u.cipher_suites, u.init_keys, u.credential⟩) u.signature = true) ∧
    ((∃ e, u.verify_sig = .error e) →
      u.verify_sig = .error Error.SignatureError) := by
  cases hb : u.credential.scheme.verify u.credential.publicKey
      (serialize_to_bytes ⟨u.user_init_key_id, u.supported_versions,
        u.cipher_suites, u.init_keys, u.credential⟩) u.signature with
  | false =>
    constructor
    · simp [UserInitKey.verify_sig, hb]
    · intro _; simp [UserInitKey.verify_sig, hb]
  | true =>
    constructor
    · simp [UserInitKey.verify_sig, hb]
    · rintro ⟨e, he⟩
      simp [UserInitKey.verify_sig, hb] at he

/-- Witness for C5: the empty bundle's empty signature fails the test
scheme's verification, and `verify_sig` reports exactly a signature error. -/
theorem uik_verify_sig_message_spec_witness :
    uikEmpty.verify_sig = .error Error.SignatureError :=
  (uik_verify_sig_message_spec uikEmpty).2 ⟨Error.SignatureError, rfl⟩

/-- C8: `GroupOperation` is a tagged union over exactly Init, Add, Update,
and Remove; Add carries a join bundle (`UserInitKey`) and an insertion
roster index, Update carries a `DirectPathMessage`, and Remove carries a
`DirectPathMessage` together with the removed roster index. -/
theorem group_operation_shape :
    (∀ op : GroupOperation,
      (∃ g, op = GroupOperation.Init g) ∨ (∃ g, op = GroupOperation.Add g) ∨
      (∃ g, op = GroupOperation.Update g) ∨ (∃ g, op = GroupOperation.Remove g)) ∧
    (∀ (i : Nat) (k : UserInitKey) (w : List Nat),
      (GroupAdd.mk i k w).init_key = k ∧ (GroupAdd.mk i k w).roster_index = i) ∧
    (∀ p : DirectPathMessage, (GroupUpdate.mk p).path = p) ∧
    (∀ (i : Nat) (p : DirectPathMessage),
      (GroupRemove.mk i p).removed_roster_index = i ∧ (GroupRemove.mk i p).path = p) := by
  refine ⟨?_, fun i k w => ⟨rfl, rfl⟩, fun p => rfl, fun i p => ⟨rfl, rfl⟩⟩
  intro op
  cases op with
  | Init g => exact Or.inl ⟨g, rfl⟩
  | Add g => exact Or.inr (Or.inl ⟨g, rfl⟩)
  | Update g => exact Or.inr (Or.inr (Or.inl ⟨g, rfl⟩))
  | Remove g => exact Or.inr (Or.inr (Or.inr ⟨g, rfl⟩))

/-- C10: the `Debug` rendering of any `AeadKey` is the fixed string, so two
keys with different secret material have identical debug output and no key
bytes can leak through debug logging. -/
theorem aead_key_debug_constant :
    (∀ k : AeadKey, k.debugFmt = "AeadKey: CONTENTS OMITTED") ∧
    (∀ k₁ k₂ : AeadKey, k₁.debugFmt = k₂.debugFmt) :=
  ⟨fun _ => rfl, fun _ _ => rfl⟩

/-- C6 counterexample: the error content does reveal which sub-step failed:
a rejected key and a rejected nonce produce distinct `EncryptionError`
values (distinct description strings), so the claim's "does not reveal
which underlying sub-step failed" is false at these concrete inputs. -/
theorem aead_error_reveals_substep_counterexample :
    Aes128Gcm.key_from_bytes [] =
      .error (Error.EncryptionError "AES-GCM-128 requires 128-bit keys") ∧
    Aes128Gcm.nonce_from_bytes [] =
      .error (Error.EncryptionError "AES-GCM-128 requires 96-bit nonces") ∧
    Error.EncryptionError "AES-GCM-128 requires 128-bit keys" ≠
      Error.EncryptionError "AES-GCM-128 requires 96-bit nonces" :=
  ⟨rfl, rfl, by decide⟩

/-- C6 (amended): every failure of the AES-128-GCM operations — key
construction, nonce construction, seal, and open — is reported with the
single error kind `Error::EncryptionError`, so the kind never distinguishes
sub-steps; `seal` and `open` moreover collapse every underlying cause into
the one value `EncryptionError "Unspecified"`, while the key and nonce
length checks carry their own description strings. -/
theorem aead_failures_are_encryption_errors :
    (∀ (kb : List Nat) (e : Error), Aes128Gcm.key_from_bytes kb = .error e →
      e.isEncryptionError = true) ∧
    (∀ (nb : List Nat) (e : Error), Aes128Gcm.nonce_from_bytes nb = .error e →
      e.isEncryptionError = true) ∧
    (∀ (k : AeadKey) (n : AeadNonce) (buf : List Nat) (e : Error),
      Aes128Gcm.seal k n buf = .error e → e = Error.EncryptionError "Unspecified") ∧
    (∀ (k : AeadKey) (n : AeadNonce) (buf : List Nat) (e : Error),
      Aes128Gcm.aeadOpen k n buf = .error e → e = Error.EncryptionError "Unspecified") := by
  refine ⟨?_, ?_, ?_, ?_⟩
  · intro kb e h
    simp only [Aes128Gcm.key_from_bytes] at h
    split at h
    · obtain rfl := Except.error.inj h; rfl
    · exact absurd h (by simp)
  · intro nb e h
    simp only [Aes128Gcm.nonce_from_bytes] at h
    split at h
    · obtain rfl := Except.error.inj h; rfl
    · exact absurd h (by simp)
  · intro k n buf e h
    obtain ⟨kk⟩ := k
    obtain ⟨nn⟩ := n
    simp only [Aes128Gcm.seal] at h
    cases hr : ring_seal_in_place kk.sealing_key nn buf with
    | ok s => rw [hr] at h; exact absurd h (by simp)
    | error v => rw [hr] at h; exact (Except.error.inj h).symm
  · intro k n buf e h
    obtain ⟨kk⟩ := k
    obtain ⟨nn⟩ := n
    simp only [Aes128Gcm.aeadOpen] at h
    cases hr : ring_open_in_place kk.opening_key nn buf with
    | ok s => rw [hr] at h; exact absurd h (by simp)
    | error v => rw [hr] at h; exact (Except.error.inj h).symm

/-- Witness for C6: a 0-byte key is rejected and the reported error is of
the `EncryptionError` kind. -/
theorem aead_failures_are_encryption_errors_witness :
    (Error.EncryptionError "AES-GCM-128 requires 128-bit keys").isEncryptionError = true :=
  aead_failures_are_encryption_errors.1 []
    (Error.EncryptionError "AES-GCM-128 requires 128-bit keys") rfl

/-! ### Helper lemmas for the AEAD round trip -/

lemma ringEnc_length (ks : Nat → Nat) :
    ∀ (i : Nat) (l : List Nat), (ringEnc ks i l).length = l.length
  | _, [] => rfl
  | i, b :: rest => by
    simp only [ringEnc, List.length_cons, ringEnc_length ks (i + 1) rest]

lemma ringDec_ringEnc (ks : Nat → Nat) :
    ∀ (i : Nat) (l : List Nat), (∀ b ∈ l, b < 256) →
      ringDec ks i (ringEnc ks i l) = l
  | _, [], _ => rfl
  | i, b :: rest, hb => by
    have hb0 : b < 256 := hb b (List.mem_cons_self b rest)
    have hrest := ringDec_ringEnc ks (i + 1) rest
      (fun x hx => hb x (List.mem_cons_of_mem b hx))
    simp only [ringEnc, ringDec, hrest, List.cons.injEq, and_true]
    omega

lemma ringTag_length (key nonce ct : List Nat) :
    (ringTag key nonce ct).length = AES_128_GCM_TAG_SIZE := by
  simp [ringTag]

/-- C9: AEAD round trip. For every 16-byte key, 12-byte nonce, and byte
plaintext, sealing `plaintext ++ extra` (where `extra` is 16 scratch bytes
for the tag) and then opening the sealed buffer with the same key and nonce
succeeds and returns exactly the original plaintext. -/
theorem aead_seal_open_roundtrip (kb nb pt extra : List Nat)
    (hk : kb.length = 16) (hn : nb.length = 12) (he : extra.length = 16)
    (hpt : ∀ b ∈ pt, b < 256) :
    ∃ (k : AeadKey) (n : AeadNonce) (sealed : List Nat),
      Aes128Gcm.key_from_bytes kb = .ok k ∧
      Aes128Gcm.nonce_from_bytes nb = .ok n ∧
      Aes128Gcm.seal k n (pt ++ extra) = .ok sealed ∧
      Aes128Gcm.aeadOpen k n sealed = .ok pt := by
  have hkok : Aes128Gcm.key_from_bytes kb =
      .ok (AeadKey.Aes128GcmKey ⟨⟨kb⟩, ⟨kb⟩⟩) := by
    simp [Aes128Gcm.key_from_bytes, AES_128_GCM_KEY_SIZE, hk]
  have hnok : Aes128Gcm.nonce_from_bytes nb =
      .ok (AeadNonce.Aes128GcmNonce ⟨nb⟩) := by
    simp [Aes128Gcm.nonce_from_bytes, AES_128_GCM_NONCE_SIZE, hn]
  set ks := ringKeystream kb nb with hks
  set ct := ringEnc ks 0 pt with hct
  set tag := ringTag kb nb ct with htag
  have hctlen : ct.length = pt.length := ringEnc_length ks 0 pt
  have htaglen : tag.length = 16 := ringTag_length kb nb ct
  have hbuf : (pt ++ extra).length = pt.length + 16 := by
    rw [List.length_append, he]
  have hseal : ring_seal_in_place ⟨kb⟩ ⟨nb⟩ (pt ++ extra) = .ok (ct ++ tag) := by
    rw [ring_seal_in_place]
    rw [if_neg (by simp only [hbuf, AES_128_GCM_TAG_SIZE]; omega)]
    have htake : (pt ++ extra).take ((pt ++ extra).length - AES_128_GCM_TAG_SIZE) = pt := by
      rw [hbuf, show pt.length + 16 - AES_128_GCM_TAG_SIZE = pt.length by
        simp [AES_128_GCM_TAG_SIZE]]
      exact List.take_left pt extra
    rw [htake]
  have hopenring : ring_open_in_place ⟨kb⟩ ⟨nb⟩ (ct ++ tag) = .ok pt := by
    rw [ring_open_in_place]
    have hlen2 : (ct ++ tag).length = ct.length + 16 := by
      rw [List.length_append, htaglen]
    rw [if_neg (by simp only [hlen2, AES_128_GCM_TAG_SIZE]; omega)]
    have hsub : (ct ++ tag).length - AES_128_GCM_TAG_SIZE = ct.length := by
      simp only [hlen2, AES_128_GCM_TAG_SIZE]
      omega
    rw [hsub, List.take_left ct tag, List.drop_left ct tag, if_pos rfl]
    exact congrArg Except.ok (ringDec_ringEnc ks 0 pt hpt)
  refine ⟨AeadKey.Aes128GcmKey ⟨⟨kb⟩, ⟨kb⟩⟩, AeadNonce.Aes128GcmNonce ⟨nb⟩,
    ct ++ tag, hkok, hnok, ?_, ?_⟩
  · simp only [Aes128Gcm.seal, hseal]
  · simp only [Aes128Gcm.aeadOpen, hopenring]

/-- Witness for C9: a concrete 3-byte plaintext round-trips under the
all-zero key and nonce. -/
theorem aead_seal_open_roundtrip_witness :
    ∃ (k : AeadKey) (n : AeadNonce) (sealed : List Nat),
      Aes128Gcm.key_from_bytes (List.replicate 16 0) = .ok k ∧
      Aes128Gcm.nonce_from_bytes (List.replicate 12 0) = .ok n ∧
      Aes128Gcm.seal k n ([1, 2, 3] ++ List.replicate 16 0) = .ok sealed ∧
      Aes128Gcm.aeadOpen k n sealed = .ok [1, 2, 3] :=
  aead_seal_open_roundtrip (List.replicate 16 0) (List.replicate 12 0) [1, 2, 3]
    (List.replicate 16 0) (by decide) (by decide) (by decide) (by decide)
